import Mathlib

/-!
# Shallow embedding of the PSocket client

This file embeds the multiplexing core of `src/PSocketClient.ts` (class
`PSocketClient`): capability metadata, the chunk-frame encoder inside
`fetch`, the pending-request table (`#responseQueue`), the inbound message
dispatcher (`#handleMessage`), the per-request eviction timer callback, the
pending-connection table (`#connections`) written by `connect`, and the
evaluation order of the constructor and `#init`.

Conventions of the embedding:
- bytes are `Nat` values below 256; byte buffers are `List Nat`;
- a correlation id is modelled as its sequence of 32 hex digit values
  (each below 16): `v4()` with the dashes removed yields 32 lowercase hex
  characters, and only the digit values matter to the protocol;
- a JavaScript sparse array (`new Array(n)` plus index assignment) is a
  `List (Option α)` whose `none` entries are the holes;
- a `throw` whose exception escapes an `async` function that nobody awaits
  (the Promise executor in `fetch`, the event listener `#handleMessage`)
  is recorded in a `thrown` field: it invokes neither `resolve` nor
  `reject`, so no caller observes it;
- invocations of stored `resolve`/`reject` continuations are recorded as
  explicit `Action` values.
-/

/-- Server capability metadata, from `PSocketMeta` in `types/PSocket.ts`.
Only the numeric limits are relevant to the multiplexing core. -/
structure PSocketMeta where
  requestTimeout : Nat
  maxBodySize : Nat
  maxMessageSize : Nat
  maxPacketSize : Nat
  deriving Repr, DecidableEq

/-- `PSocketClient.META_BYTES`: 16 id bytes plus 2 chunk-index bytes. -/
def META_BYTES : Nat := 18

/-- `Math.ceil(a / b)` for nonnegative integers `a` and positive `b`. -/
def ceilDiv (a b : Nat) : Nat := (a + b - 1) / b

/-- `pRequest.id.match(..).map((byte) => parseInt(byte, 16))` with the
pattern matching runs of one or two characters: consecutive pairs of hex
digits become one byte each (a trailing lone digit would parse as its own
value). -/
def hexPairsToBytes : List Nat → List Nat
  | d0 :: d1 :: rest => (d0 * 16 + d1) :: hexPairsToBytes rest
  | [d] => [d]
  | [] => []

/-- `byte.toString(16).padStart(2, "0")` for a byte below 256: the two hex
digit values of the byte. -/
def byteToHexDigits (b : Nat) : List Nat := [b / 16, b % 16]

/-- `Array.from(bytes).map((byte) => byte.toString(16).padStart(2, "0")).join("")`
as a list of hex digit values. -/
def bytesToHexDigits (bs : List Nat) : List Nat :=
  (bs.map byteToHexDigits).flatten

/-- One binary chunk frame as built inside the send loop of `fetch`:
16 id bytes, two big-endian index bytes, then the payload slice.
For `0 ≤ i < 2 ^ 31`, `(i >> 8) & 0xff` equals `i / 256 % 256` and
`i & 0xff` equals `i % 256`. -/
structure ChunkFrame where
  idBytes : List Nat
  idxHi : Nat
  idxLo : Nat
  payload : List Nat
  deriving Repr, DecidableEq

/-- The wire bytes of a chunk frame: the argument of `this.ws.send`. -/
def ChunkFrame.wire (f : ChunkFrame) : List Nat :=
  f.idBytes ++ [f.idxHi, f.idxLo] ++ f.payload

/-- The frame sent at loop index `i` in `fetch`: the payload is
`body.slice(i * usableBytes, (i + 1) * usableBytes)`, which clamps to the
end of the buffer. -/
def chunkFrame (idBytes : List Nat) (usable : Nat) (body : List Nat)
    (i : Nat) : ChunkFrame :=
  { idBytes := idBytes
    idxHi := i / 256 % 256
    idxLo := i % 256
    payload := (body.drop (i * usable)).take usable }

/-- The send loop of `fetch`: `packets = Math.ceil(body.byteLength / usableBytes)`
frames, emitted at indices `0 .. packets - 1` in order. -/
def encodeChunks (idBytes : List Nat) (usable : Nat) (body : List Nat) :
    List ChunkFrame :=
  (List.range (ceilDiv body.length usable)).map (chunkFrame idBytes usable body)

example : (encodeChunks [] 2 [1, 2, 3, 4]).map ChunkFrame.payload =
    [[1, 2], [3, 4]] := by decide

example : ceilDiv 2003 1006 = 2 := by decide

/-- A correlation id: the 32 hex digit values of the key strings of
`#responseQueue` and `#connections`. -/
abbrev CorrelationId : Type := List Nat

/-- The fields of a `PSocketResponse` control frame used by the client:
final url, status, status text, headers, optional declared body length. -/
structure RespMeta where
  url : String
  status : Nat
  statusText : String
  headers : List (String × String)
  body : Option Nat
  deriving Repr, DecidableEq

/-- `!message.body` on the optional declared body length: `undefined` and
`0` are both falsy in JavaScript. -/
def declaredBodyFalsy : Option Nat → Bool
  | none => true
  | some n => n == 0

/-- One entry of `#responseQueue`: the sparse chunk slot array, the url of
the outbound request (`request.request.url`), the response control frame
once seen, and whether the eviction timer is still armed. The stored
`resolve` and `reject` continuations are represented implicitly: invoking
them is a `ClientAction`. -/
structure Entry where
  chunks : List (Option (List Nat))
  requestUrl : String
  response : Option RespMeta
  timerArmed : Bool
  deriving Repr, DecidableEq

/-- The response handed to a stored `resolve` continuation: a `PResponse`
built from a url, status metadata, and an optional body buffer. -/
structure Resolved where
  url : String
  status : Nat
  statusText : String
  headers : List (String × String)
  body : Option (List Nat)
  deriving Repr, DecidableEq

/-- An invocation of a continuation stored in `#responseQueue` or
`#connections`. -/
inductive ClientAction where
  | resolveRequest (id : CorrelationId) (r : Resolved)
  | rejectRequest (id : CorrelationId) (msg : String)
  | resolveConnection (id : CorrelationId)
  | rejectConnection (id : CorrelationId)
  deriving Repr, DecidableEq

/-- The mutable state of a `PSocketClient`: the pending request table
`#responseQueue` and the set of ids registered in `#connections`
(each holding a resolve/reject pair). Both are JavaScript objects keyed
by id strings; an association list models them. -/
structure ClientState where
  responseQueue : List (CorrelationId × Entry)
  connections : List CorrelationId
  deriving Repr, DecidableEq

/-- `this.#responseQueue[id]`: lookup by key. -/
def qLookup (q : List (CorrelationId × Entry)) (k : CorrelationId) :
    Option Entry :=
  match q with
  | [] => none
  | (k2, v) :: rest => if k2 = k then some v else qLookup rest k

/-- `this.#responseQueue[id] = entry`: overwrite the binding if the key is
present, append it otherwise. -/
def qSet (q : List (CorrelationId × Entry)) (k : CorrelationId)
    (v : Entry) : List (CorrelationId × Entry) :=
  match q with
  | [] => [(k, v)]
  | (k2, v2) :: rest =>
      if k2 = k then (k2, v) :: rest else (k2, v2) :: qSet rest k v

/-- `delete this.#responseQueue[id]`. -/
def qErase (q : List (CorrelationId × Entry)) (k : CorrelationId) :
    List (CorrelationId × Entry) :=
  match q with
  | [] => []
  | (k2, v2) :: rest =>
      if k2 = k then rest else (k2, v2) :: qErase rest k

/-- `request.chunks[index] = value` on a JavaScript array: assigning at an
index beyond the current length lengthens the array, leaving holes in
between. -/
def jsSet (arr : List (Option α)) (i : Nat) (v : α) : List (Option α) :=
  if i < arr.length then arr.set i (some v)
  else arr ++ List.replicate (i - arr.length) none ++ [some v]

/-- `request.chunks.every((chunk) => chunk !== undefined)`:
`Array.prototype.every` skips the holes of a sparse array, and every
present element was stored as `data.slice(18)`, a `Uint8Array` that is
never `undefined`, so each present slot passes the predicate. -/
def jsEveryDefined (chunks : List (Option (List Nat))) : Bool :=
  chunks.all fun slot =>
    match slot with
    | none => true
    | some _ => true

/-- The reassembly loop `for (const chunk of request.chunks) body.set(chunk, ..)`:
`for..of` iteration does not skip holes, it yields `undefined` for each,
and `body.set(undefined, offset)` throws a `TypeError`; when there is no
hole the loop concatenates the slots in index order. -/
def concatChunks : List (Option (List Nat)) → Except String (List Nat)
  | [] => .ok []
  | none :: _ => .error "TypeError"
  | some c :: rest =>
      match concatChunks rest with
      | .ok b => .ok (c ++ b)
      | .error e => .error e

/-- An inbound websocket message: a text message carrying a parsed control
frame, or a binary message carrying raw bytes. -/
inductive ControlFrame where
  | response (id : CorrelationId) (meta : RespMeta)
  | opened (id : CorrelationId)
  | closed (id : CorrelationId)
  | message (id : CorrelationId)
  | error (id : CorrelationId) (code key msg : String)
  | unknownType
  deriving Repr, DecidableEq

/-- The `data` field of the `MessageEvent` handed to `#handleMessage`. -/
inductive InMessage where
  | text (frame : ControlFrame)
  | binary (data : List Nat)
  deriving Repr, DecidableEq

/-- The outcome of one `#handleMessage` invocation: the new client state,
the continuation invocations it performed, and the message of an exception
that escaped the handler, if any. `#handleMessage` is an `async` event
listener whose returned promise nobody awaits, so a thrown exception is an
unhandled rejection: it reaches no caller and the next inbound message is
dispatched normally. -/
structure HandleResult where
  state : ClientState
  actions : List ClientAction
  thrown : Option String
  deriving Repr, DecidableEq

/-- `#handleMessage`, case by case on the inbound message.

Text branch (`JSON.parse`, `switch (message.type)`):
- `response`: missing entry returns silently; otherwise the frame is
  stored in `request.response`; if the declared body length is falsy the
  timer is cleared and `resolve` is called with a `PResponse` built from
  the frame metadata alone (no body) — the entry is not deleted;
- `open`, `close`, `message`: the source only has TODO comments, no
  continuation is invoked and no state changes;
- `error`: `throw new Error(message.message)`;
- unknown tag: `throw new Error("Unknown message type.")`.

Binary branch:
- the id is read from `data.slice(0, 16)` as hex, the index from bytes 16
  and 17 big-endian (a missing byte reads as `undefined`, and
  `undefined & 0xff` evaluates to 0);
- a missing entry throws `"Matching request not found."`;
- the payload `data.slice(18)` is stored at the index, then the
  hole-skipping `every` check runs; on success the slots are concatenated
  (a hole throws a `TypeError` before `clearTimeout` is reached); after a
  complete concatenation `clearTimeout` runs and then
  `request.response!.status` is read, which throws a `TypeError` when no
  response frame has been stored; otherwise `resolve` is called with the
  request url, the stored response metadata and the body. The entry is
  not deleted. -/
def handleMessage (s : ClientState) : InMessage → HandleResult
  | .text frame =>
    match frame with
    | .response id meta =>
        match qLookup s.responseQueue id with
        | none => ⟨s, [], none⟩
        | some e =>
            let e1 : Entry := { e with response := some meta }
            if declaredBodyFalsy meta.body then
              let e2 : Entry := { e1 with timerArmed := false }
              ⟨{ s with responseQueue := qSet s.responseQueue id e2 },
               [ClientAction.resolveRequest id
                 ⟨meta.url, meta.status, meta.statusText, meta.headers, none⟩],
               none⟩
            else
              ⟨{ s with responseQueue := qSet s.responseQueue id e1 }, [], none⟩
    | .opened _ => ⟨s, [], none⟩
    | .closed _ => ⟨s, [], none⟩
    | .message _ => ⟨s, [], none⟩
    | .error _ _ _ msg => ⟨s, [], some msg⟩
    | .unknownType => ⟨s, [], some "Unknown message type."⟩
  | .binary data =>
    let id := bytesToHexDigits (data.take 16)
    let index := data.getD 16 0 % 256 * 256 + data.getD 17 0 % 256
    match qLookup s.responseQueue id with
    | none => ⟨s, [], some "Matching request not found."⟩
    | some e =>
        let chunks1 := jsSet e.chunks index (data.drop 18)
        let e1 : Entry := { e with chunks := chunks1 }
        let s1 : ClientState :=
          { s with responseQueue := qSet s.responseQueue id e1 }
        if jsEveryDefined chunks1 then
          match concatChunks chunks1 with
          | .error msg => ⟨s1, [], some msg⟩
          | .ok body =>
              let e2 : Entry := { e1 with timerArmed := false }
              let s2 : ClientState :=
                { s with responseQueue := qSet s.responseQueue id e2 }
              match e.response with
              | none => ⟨s2, [], some "TypeError"⟩
              | some r =>
                  ⟨s2,
                   [ClientAction.resolveRequest id
                     ⟨e.requestUrl, r.status, r.statusText, r.headers,
                      some body⟩],
                   none⟩
        else ⟨s1, [], none⟩

/-- The timer callback armed by `fetch`: when it fires, if the entry is
still present it is deleted and `reject(new Error("Request timed out."))`
is called. -/
def onTimeout (s : ClientState) (id : CorrelationId) :
    ClientState × List ClientAction :=
  match qLookup s.responseQueue id with
  | some _ =>
      ({ s with responseQueue := qErase s.responseQueue id },
       [ClientAction.rejectRequest id "Request timed out."])
  | none => (s, [])

/-- `Math.ceil(body?.byteLength ?? 0 / usableBytes)`, the length passed to
`new Array(..)` for the chunk slot array in `fetch`. The nullish
coalescing operator binds looser than division, so this parses as
`body?.byteLength ?? (0 / usableBytes)`: with a body present it is the
body byte length (already an integer, so `Math.ceil` is the identity),
and with no body it is `0 / usableBytes`, which is `0` for positive
`usableBytes`. -/
def initialChunkSlots (body : Option (List Nat)) (usable : Nat) : Nat :=
  match body with
  | some b => b.length
  | none => 0 / usable

/-- The outcome of one `fetch` call once `this.ready` has resolved:
whether the JSON control frame was sent, the chunk frames sent, the new
client state, and the message of an exception that escaped, if any. The
body of `fetch` runs inside `new Promise(async (resolve, reject) => ..)`;
an exception thrown there rejects only the executor function's own
(ignored) promise, so neither `resolve` nor `reject` of the promise
returned by `fetch` is invoked and that promise never settles. -/
structure FetchOutcome where
  sentControl : Bool
  sentChunks : List ChunkFrame
  state : ClientState
  thrown : Option String
  deriving Repr, DecidableEq

/-- `fetch`, after `await this.ready`, for a request with correlation id
`id`, url `url` and optional body bytes `body`:
- with a body whose byte length exceeds `this.meta.maxBodySize`, the
  executor throws `new Error("Body too large.")` before the control frame
  send on the next line, so nothing is sent and nothing is registered;
- otherwise the JSON control frame is sent, then one chunk frame per
  packet (`Math.ceil(body.byteLength / usableBytes)` packets, none for a
  missing body), and the entry is registered in `#responseQueue` with the
  mis-sized chunk slot array and an armed eviction timer. -/
def fetchModel (meta : PSocketMeta) (s : ClientState) (id : CorrelationId)
    (url : String) (body : Option (List Nat)) : FetchOutcome :=
  let usable := meta.maxPacketSize - META_BYTES
  match body with
  | some b =>
      if b.length > meta.maxBodySize then
        ⟨false, [], s, some "Body too large."⟩
      else
        let entry : Entry :=
          { chunks := List.replicate (initialChunkSlots (some b) usable) none
            requestUrl := url
            response := none
            timerArmed := true }
        ⟨true, encodeChunks (hexPairsToBytes id) usable b,
         { s with responseQueue := qSet s.responseQueue id entry }, none⟩
  | none =>
      let entry : Entry :=
        { chunks := List.replicate (initialChunkSlots none usable) none
          requestUrl := url
          response := none
          timerArmed := true }
      ⟨true, [],
       { s with responseQueue := qSet s.responseQueue id entry }, none⟩

/-- `connect`, after `await this.ready`: sends the `connect` control frame
and stores the resolve/reject pair in `this.#connections[id]`. -/
def connectModel (s : ClientState) (id : CorrelationId) : ClientState :=
  { s with connections := s.connections ++ [id] }

/-- Dispatch a sequence of inbound messages, in arrival order, collecting
every continuation invocation. Each `message` event invokes
`#handleMessage` independently, so an exception escaping one invocation
does not stop the dispatch of the next message. -/
def runMessages (s : ClientState) :
    List InMessage → ClientState × List ClientAction
  | [] => (s, [])
  | m :: rest =>
      let r := handleMessage s m
      let tail := runMessages r.state rest
      (tail.1, r.actions ++ tail.2)

/-- An observable step of client startup: the argument passed to the
global `fetch` by `#fetchMeta`, the assignment of `this.url`, or the url
passed to `new WebSocket`. A `none` url models reading `this.url` while it
is still `undefined`. -/
inductive InitEvent where
  | negotiationFetch (url : Option String)
  | assignUrl (url : String)
  | openWebSocket (url : Option String)
  deriving Repr, DecidableEq

/-- The state touched during startup: `this.url` plus the trace of
observable startup events. -/
structure CtorState where
  url : Option String
  events : List InitEvent
  deriving Repr, DecidableEq

/-- The synchronous prefix of `this.#init()`: the promise executor starts
running at once, `#fetchMeta` is entered, and `fetch(this.url)` is
evaluated with the current value of `this.url` — everything up to the
first suspension point `await fetch(..)`. -/
def initSyncPrefix (s : CtorState) : CtorState :=
  { s with events := s.events ++ [InitEvent.negotiationFetch s.url] }

/-- The continuation of `#init` after `await this.#fetchMeta()` resolves:
`this.meta` is assigned and `new WebSocket(this.url)` is constructed with
the value of `this.url` at that later time. -/
def initAfterMeta (s : CtorState) : CtorState :=
  { s with events := s.events ++ [InitEvent.openWebSocket s.url] }

/-- The constructor body, in source order: `this.ready = this.#init();`
runs the synchronous prefix of `#init` first, and only the next statement
`this.url = options.url;` assigns the configured url. -/
def constructorRun (configured : String) : CtorState :=
  let s1 := initSyncPrefix { url := none, events := [] }
  { s1 with url := some configured,
            events := s1.events ++ [InitEvent.assignUrl configured] }

/-- Startup through the resolution of the negotiation request: the
constructor, then the rest of `#init` once the meta response arrives. -/
def startupRun (configured : String) : CtorState :=
  initAfterMeta (constructorRun configured)

/-- The urls passed to the global `fetch` during startup: the negotiation
requests issued. -/
def negotiationFetches (s : CtorState) : List (Option String) :=
  s.events.filterMap fun e =>
    match e with
    | InitEvent.negotiationFetch u => some u
    | _ => none

example :
    negotiationFetches (startupRun "https://example.com/psocket/") =
      [none] := by decide

example :
    (startupRun "https://example.com/psocket/").events =
      [InitEvent.negotiationFetch none,
       InitEvent.assignUrl "https://example.com/psocket/",
       InitEvent.openWebSocket (some "https://example.com/psocket/")] := by
  decide

/-- True exactly for invocations of continuations stored in
`#connections`. -/
def isConnAction : ClientAction → Bool
  | .resolveConnection _ => true
  | .rejectConnection _ => true
  | _ => false

/-- A capability record with `maxPacketSize = 20`, so 2 usable payload
bytes per packet. -/
def sampleMeta : PSocketMeta :=
  { requestTimeout := 1000
    maxBodySize := 10000
    maxMessageSize := 10000
    maxPacketSize := 20 }

/-- A capability record with `maxBodySize = 3`. -/
def tinyBodyMeta : PSocketMeta :=
  { requestTimeout := 1000
    maxBodySize := 3
    maxMessageSize := 10000
    maxPacketSize := 1024 }

/-- Concrete correlation ids: 32 hex digits each. -/
def cid0 : CorrelationId := List.replicate 32 0

def cid1 : CorrelationId := List.replicate 32 1

def cid2 : CorrelationId := List.replicate 32 2

def cid3 : CorrelationId := List.replicate 32 3

def cid4 : CorrelationId := List.replicate 32 4

def cid5 : CorrelationId := List.replicate 32 5

def cid6 : CorrelationId := List.replicate 32 6

def cid7 : CorrelationId := List.replicate 32 7

/-- A client with nothing pending. -/
def startState : ClientState := ⟨[], []⟩

/-- A pending entry as registered for a body-less request: empty chunk
slot array, no response yet, timer armed. -/
def pendingEntry : Entry :=
  { chunks := [], requestUrl := "https://origin/", response := none
    timerArmed := true }

/-- The `fetch` call of the round-trip scenario: body `[1, 2, 3, 4]` under
`sampleMeta`, hence 2 usable bytes per packet and 2 chunk frames. -/
def roundtripFetch : FetchOutcome :=
  fetchModel sampleMeta startState cid0 "https://remote/" (some [1, 2, 3, 4])

/-- The wire bytes of the two chunk frames of the round-trip scenario. -/
def chunkWire0 : List Nat := List.replicate 16 0 ++ [0, 0] ++ [1, 2]

def chunkWire1 : List Nat := List.replicate 16 0 ++ [0, 1] ++ [3, 4]

/-- The response control frame of the round-trip scenario, declaring the
4-byte body. -/
def roundtripResp : ControlFrame :=
  .response cid0 ⟨"https://remote/", 200, "OK", [], some 4⟩

/-- The round-trip scenario with chunks arriving in index order. -/
def roundtripInOrder : ClientState × List ClientAction :=
  runMessages roundtripFetch.state
    [.text roundtripResp, .binary chunkWire0, .binary chunkWire1]

/-- The round-trip scenario with chunks arriving in reverse order. -/
def roundtripReversed : ClientState × List ClientAction :=
  runMessages roundtripFetch.state
    [.text roundtripResp, .binary chunkWire1, .binary chunkWire0]

theorem qLookup_qSet_self (q : List (CorrelationId × Entry))
    (k : CorrelationId) (v : Entry) : qLookup (qSet q k v) k = some v := by
  induction q with
  | nil => simp [qSet, qLookup]
  | cons p rest ih =>
      obtain ⟨k2, v2⟩ := p
      by_cases h : k2 = k <;> simp [qSet, qLookup, h, ih]

theorem encodeChunks_length (idB : List Nat) (usable : Nat)
    (b : List Nat) :
    (encodeChunks idB usable b).length = ceilDiv b.length usable := by
  simp [encodeChunks]

theorem encodeChunks_get (idB : List Nat) (usable : Nat) (b : List Nat)
    (i : Nat) (h : i < ceilDiv b.length usable) :
    (encodeChunks idB usable b).get? i = some (chunkFrame idB usable b i) := by
  simp only [encodeChunks, List.get?_eq_getElem?, List.getElem?_map,
    List.getElem?_range h]
  rfl

theorem chunkFrame_payload_length (idB : List Nat) (usable : Nat)
    (b : List Nat) (i : Nat) :
    (chunkFrame idB usable b i).payload.length
      = min usable (b.length - i * usable) := by
  simp [chunkFrame]

/-- C1: the round-trip claim fails on the code. For the 4-byte body
`[1, 2, 3, 4]` with 2 usable bytes per packet, `fetch` emits exactly the
two expected chunk frames, but feeding them back to `#handleMessage`
(after the response control frame declaring the 4-byte body) never
completes the request in either arrival order: the slot array was sized
to the body byte length (4) instead of the chunk count (2), the
hole-skipping `every` check passes after the first chunk, and the
reassembly loop then hits a hole and throws a `TypeError`, so no
`resolve` invocation ever happens even after every chunk has arrived, and
the entry stays pending with its timer armed. -/
theorem roundtrip_reassembly_fails :
    roundtripFetch.sentChunks.map ChunkFrame.wire = [chunkWire0, chunkWire1]
    ∧ roundtripInOrder.2 = []
    ∧ roundtripReversed.2 = []
    ∧ (handleMessage
        (runMessages roundtripFetch.state
          [.text roundtripResp, .binary chunkWire0]).1
        (.binary chunkWire1)).thrown = some "TypeError"
    ∧ (qLookup roundtripInOrder.1.responseQueue cid0).map Entry.timerArmed
        = some true := by decide

/-- C2: the chunk slot array is not sized to the expected chunk count.
With `maxPacketSize = 20` (2 usable bytes) and a 4-byte body, the entry
registered by `fetch` has 4 chunk slots, while the claimed size is
`ceil(4 / 2) = 2`: the nullish coalescing in
`Math.ceil(body?.byteLength ?? 0 / usableBytes)` binds looser than the
division, so the allocated length is the body byte length. -/
theorem chunk_slots_missized :
    (qLookup (fetchModel sampleMeta startState cid1 "https://remote/"
        (some [1, 2, 3, 4])).state.responseQueue cid1).map
        (fun e => e.chunks.length) = some 4
    ∧ ceilDiv 4 (sampleMeta.maxPacketSize - META_BYTES) = 2
    ∧ (4 : Nat) ≠ 2 := by decide

/-- C4: an oversized body makes the `fetch` executor throw
`"Body too large."` before the control-frame send, so no control frame
and no chunk frames are sent and nothing is registered in the table — but
the throw happens inside the `async` Promise executor, so neither
`resolve` nor `reject` of the promise returned by `fetch` is invoked:
with no registered entry there is not even a timer left to reject it, and
the promise never settles instead of rejecting. -/
theorem body_too_large_promise_never_settles :
    fetchModel tinyBodyMeta startState cid2 "https://remote/"
        (some [1, 2, 3, 4])
      = { sentControl := false, sentChunks := [], state := startState,
          thrown := some "Body too large." } := by decide

/-- C5: the constructor assigns `this.ready = this.#init()` before
`this.url = options.url`, and `#fetchMeta` evaluates `fetch(this.url)`
synchronously inside `#init`, so the single negotiation request is issued
while `this.url` is still `undefined` — it does not target the configured
base URL. The WebSocket, opened only after the negotiation response
arrives, does get the configured url. -/
theorem negotiation_fetch_before_url_assigned :
    negotiationFetches (startupRun "https://example.com/psocket/") = [none]
    ∧ (startupRun "https://example.com/psocket/").events =
        [InitEvent.negotiationFetch none,
         InitEvent.assignUrl "https://example.com/psocket/",
         InitEvent.openWebSocket (some "https://example.com/psocket/")]
    ∧ (none : Option String) ≠ some "https://example.com/psocket/" := by
  decide

/-- C8: an inbound error control frame is not routed to the pending entry
it references: `#handleMessage` executes `throw new Error(message.message)`
without consulting `#responseQueue`, so the matching entry stays in the
table with its timer armed, no continuation is invoked (no `RemoteError`
reaches the caller), and the thrown error escapes the un-awaited async
event listener. -/
theorem error_frame_throws_and_preserves_entry :
    handleMessage ⟨[(cid3, pendingEntry)], []⟩
        (.text (.error cid3 "ECODE" "EKEY" "boom"))
      = ⟨⟨[(cid3, pendingEntry)], []⟩, [], some "boom"⟩ := by decide

/-- C3: the chunk emission of `fetch` is correct: exactly
`ceil(bodyLength / usable)` frames, the frame at position `i` carrying
index `i` and the payload slice of exactly `min(usable, remaining)`
bytes; `fetch` under a large-enough `maxBodySize` sends exactly these
frames. In particular a 2003-byte body with 1006 usable bytes per packet
yields two frames with payload lengths 1006 and 997 and index fields
`(0, 0)` and `(0, 1)`. -/
theorem chunk_emission_correct :
    (∀ (idB b : List Nat) (usable : Nat), 0 < usable →
      (encodeChunks idB usable b).length = ceilDiv b.length usable
      ∧ (∀ i, i < ceilDiv b.length usable →
          (encodeChunks idB usable b).get? i
            = some (chunkFrame idB usable b i))
      ∧ (∀ i, (chunkFrame idB usable b i).payload.length
            = min usable (b.length - i * usable))
      ∧ (∀ (meta : PSocketMeta) (s : ClientState) (id : CorrelationId)
            (url : String),
          b.length ≤ meta.maxBodySize →
          (fetchModel meta s id url (some b)).sentChunks
            = encodeChunks (hexPairsToBytes id)
                (meta.maxPacketSize - META_BYTES) b))
    ∧ (encodeChunks [] 1006 (List.replicate 2003 0)).map
        (fun f => f.payload.length) = [1006, 997]
    ∧ (encodeChunks [] 1006 (List.replicate 2003 0)).map
        (fun f => (f.idxHi, f.idxLo)) = [(0, 0), (0, 1)] := by
  have hrange : List.range 2 = [0, 1] := by decide
  have hlen : (List.replicate 2003 (0 : Nat)).length = 2003 := by
    rw [List.length_replicate]
  have hc : ceilDiv (List.replicate 2003 (0 : Nat)).length 1006 = 2 := by
    rw [hlen]
    decide
  refine ⟨fun idB b usable hu =>
    ⟨encodeChunks_length idB usable b,
     fun i hi => encodeChunks_get idB usable b i hi,
     fun i => chunkFrame_payload_length idB usable b i,
     fun meta s id url hb => ?_⟩, ?_, ?_⟩
  · simp only [fetchModel]
    rw [if_neg (by omega)]
  · simp only [encodeChunks, hc, hrange, List.map_cons, List.map_nil,
      List.map_map, Function.comp]
    rw [chunkFrame_payload_length, chunkFrame_payload_length, hlen]
    decide
  · simp only [encodeChunks, hc, hrange, List.map_cons, List.map_nil,
      List.map_map, Function.comp]
    rfl

/-- Witness for C3 at the 4-byte body `[1, 2, 3, 4]` with 2 usable bytes
per packet under `sampleMeta`. -/
theorem chunk_emission_correct_witness :
    ((0 : Nat) < 2 ∧ (0 : Nat) < ceilDiv [1, 2, 3, 4].length 2
      ∧ [1, 2, 3, 4].length ≤ sampleMeta.maxBodySize)
    ∧ (encodeChunks [] 2 [1, 2, 3, 4]).length = ceilDiv [1, 2, 3, 4].length 2
    ∧ (encodeChunks [] 2 [1, 2, 3, 4]).get? 0
        = some (chunkFrame [] 2 [1, 2, 3, 4] 0)
    ∧ (fetchModel sampleMeta startState cid4 "https://remote/"
          (some [1, 2, 3, 4])).sentChunks
        = encodeChunks (hexPairsToBytes cid4)
            (sampleMeta.maxPacketSize - META_BYTES) [1, 2, 3, 4] := by
  have h := chunk_emission_correct.1 [] [1, 2, 3, 4] 2 (by decide)
  exact ⟨⟨by decide, by decide, by decide⟩, h.1, h.2.1 0 (by decide),
    h.2.2.2 sampleMeta startState cid4 "https://remote/" (by decide)⟩

/-- C9: when a body needs more than 65536 chunks the encoder still emits
one frame per chunk, each index field staying two bytes (both below 256)
and equal to the index reduced modulo 65536, so chunks whose indices are
congruent modulo 65536 carry identical index fields; no error is raised
anywhere on this path. -/
theorem chunk_index_wraps_mod_65536 :
    ∀ (idB b : List Nat) (usable i j : Nat), 0 < usable →
      65536 * usable < b.length →
      (encodeChunks idB usable b).length = ceilDiv b.length usable
      ∧ 65536 < (encodeChunks idB usable b).length
      ∧ (chunkFrame idB usable b i).idxHi < 256
      ∧ (chunkFrame idB usable b i).idxLo < 256
      ∧ (i % 65536 = j % 65536 →
          (chunkFrame idB usable b i).idxHi
            = (chunkFrame idB usable b j).idxHi
          ∧ (chunkFrame idB usable b i).idxLo
            = (chunkFrame idB usable b j).idxLo) := by
  intro idB b usable i j hu hlen
  refine ⟨encodeChunks_length idB usable b, ?_, Nat.mod_lt _ (by decide),
    Nat.mod_lt _ (by decide), fun hmod => ⟨?_, ?_⟩⟩
  · rw [encodeChunks_length]
    have h1 : 65537 * usable ≤ b.length + usable - 1 := by omega
    exact (Nat.le_div_iff_mul_le hu).mpr h1
  · show i / 256 % 256 = j / 256 % 256
    omega
  · show i % 256 = j % 256
    omega

theorem replicate_65537_length_bound :
    65536 * 1 < (List.replicate 65537 (0 : Nat)).length := by
  rw [List.length_replicate]
  omega

/-- Witness for C9: with one usable byte per packet and a 65537-byte
body, frames 0 and 65536 carry identical index fields. -/
theorem chunk_index_wraps_witness :
    ((0 : Nat) < 1 ∧ 65536 * 1 < (List.replicate 65537 (0 : Nat)).length
      ∧ (0 : Nat) % 65536 = 65536 % 65536)
    ∧ 65536 < (encodeChunks [] 1 (List.replicate 65537 (0 : Nat))).length
    ∧ (chunkFrame [] 1 (List.replicate 65537 (0 : Nat)) 0).idxHi
        = (chunkFrame [] 1 (List.replicate 65537 (0 : Nat)) 65536).idxHi
    ∧ (chunkFrame [] 1 (List.replicate 65537 (0 : Nat)) 0).idxLo
        = (chunkFrame [] 1 (List.replicate 65537 (0 : Nat)) 65536).idxLo := by
  have h := chunk_index_wraps_mod_65536 [] (List.replicate 65537 (0 : Nat))
    1 0 65536 (by decide) replicate_65537_length_bound
  exact ⟨⟨by decide, replicate_65537_length_bound, by decide⟩, h.2.1,
    (h.2.2.2.2 (by decide)).1, (h.2.2.2.2 (by decide)).2⟩

/-- C6 counterexample: a response frame with absent declared body length
does complete the entry immediately (the `resolve` invocation carries the
metadata and no body), but the entry is not removed from the table —
`#handleMessage` never deletes it, refuting the removal part of the
claim. -/
theorem response_completion_entry_not_removed_cex :
    (handleMessage ⟨[(cid5, pendingEntry)], []⟩
        (.text (.response cid5 ⟨"https://final/", 200, "OK", [], none⟩))).actions
      = [ClientAction.resolveRequest cid5
          ⟨"https://final/", 200, "OK", [], none⟩]
    ∧ qLookup (handleMessage ⟨[(cid5, pendingEntry)], []⟩
        (.text (.response cid5
          ⟨"https://final/", 200, "OK", [], none⟩))).state.responseQueue cid5
      = some { pendingEntry with
                response := some ⟨"https://final/", 200, "OK", [], none⟩,
                timerArmed := false } := by decide

/-- C6 (amended): a response frame with zero or absent declared body
length completes the pending entry immediately from the response metadata
alone (no body bytes) and clears its timer, but the entry stays in the
table; with a nonzero declared length the entry stays pending for chunk
frames, with the response frame attached and the timer still in its
previous state. -/
theorem response_completion_amended :
    ∀ (s : ClientState) (id : CorrelationId) (meta : RespMeta) (e : Entry),
      qLookup s.responseQueue id = some e →
      (declaredBodyFalsy meta.body = true →
        handleMessage s (.text (.response id meta))
          = ⟨⟨qSet s.responseQueue id
                { e with response := some meta, timerArmed := false },
              s.connections⟩,
             [ClientAction.resolveRequest id
               ⟨meta.url, meta.status, meta.statusText, meta.headers, none⟩],
             none⟩
        ∧ qLookup (handleMessage s
              (.text (.response id meta))).state.responseQueue id
            = some { e with response := some meta, timerArmed := false })
      ∧ (declaredBodyFalsy meta.body = false →
        handleMessage s (.text (.response id meta))
          = ⟨⟨qSet s.responseQueue id { e with response := some meta },
              s.connections⟩, [], none⟩
        ∧ qLookup (handleMessage s
              (.text (.response id meta))).state.responseQueue id
            = some { e with response := some meta }) := by
  intro s id meta e he
  constructor
  · intro hf
    constructor
    · simp [handleMessage, he, hf]
    · simp [handleMessage, he, hf, qLookup_qSet_self]
  · intro hf
    constructor
    · simp [handleMessage, he, hf]
    · simp [handleMessage, he, hf, qLookup_qSet_self]

/-- Witness for C6 at a 204-style response with no declared body. -/
theorem response_completion_amended_witness :
    qLookup [(cid6, pendingEntry)] cid6 = some pendingEntry
    ∧ declaredBodyFalsy none = true
    ∧ handleMessage ⟨[(cid6, pendingEntry)], []⟩
        (.text (.response cid6 ⟨"https://final/", 204, "No Content", [], none⟩))
      = ⟨⟨[(cid6, { pendingEntry with
              response := some ⟨"https://final/", 204, "No Content", [], none⟩,
              timerArmed := false })], []⟩,
         [ClientAction.resolveRequest cid6
           ⟨"https://final/", 204, "No Content", [], none⟩], none⟩ := by
  have h := (response_completion_amended ⟨[(cid6, pendingEntry)], []⟩ cid6
      ⟨"https://final/", 204, "No Content", [], none⟩ pendingEntry
      (by decide)).1 (by decide)
  exact ⟨by decide, by decide, h.1.trans (by decide)⟩

/-- C7 counterexample: after the eviction timer has removed the entry, a
chunk frame for that id is not silently ignored: `#handleMessage` throws
`"Matching request not found."`, refuting the ignored-without-effect,
not-an-error part of the claim. -/
theorem stale_chunk_not_ignored_cex :
    (onTimeout ⟨[(cid7, pendingEntry)], []⟩ cid7).1 = startState
    ∧ handleMessage (onTimeout ⟨[(cid7, pendingEntry)], []⟩ cid7).1
        (.binary (hexPairsToBytes cid7 ++ [0, 0] ++ [9]))
      = ⟨startState, [], some "Matching request not found."⟩ := by decide

/-- C7 (amended): when the timer fires for an entry that is still
registered, the entry is removed and the caller is rejected with the
timeout error; but a chunk frame whose id matches no entry makes the
handler throw `"Matching request not found."` (leaving the table
unchanged and invoking no continuation) instead of being silently
ignored. -/
theorem timeout_evicts_and_stale_chunk_throws :
    ∀ (s : ClientState) (id : CorrelationId) (e : Entry) (data : List Nat),
      (qLookup s.responseQueue id = some e →
        onTimeout s id
          = (⟨qErase s.responseQueue id, s.connections⟩,
             [ClientAction.rejectRequest id "Request timed out."]))
      ∧ (qLookup s.responseQueue (bytesToHexDigits (data.take 16)) = none →
        handleMessage s (.binary data)
          = ⟨s, [], some "Matching request not found."⟩) := by
  intro s id e data
  constructor
  · intro he
    simp [onTimeout, he]
  · intro hn
    simp [handleMessage, hn]

/-- Witness for C7: a one-entry table whose timer fires, then a stale
chunk frame for the removed id. -/
theorem timeout_evicts_witness :
    qLookup [(cid7, pendingEntry)] cid7 = some pendingEntry
    ∧ onTimeout ⟨[(cid7, pendingEntry)], []⟩ cid7
        = (startState, [ClientAction.rejectRequest cid7 "Request timed out."])
    ∧ qLookup (startState).responseQueue
        (bytesToHexDigits ((hexPairsToBytes cid7 ++ [0, 1] ++ [9]).take 16))
        = none
    ∧ handleMessage startState
        (.binary (hexPairsToBytes cid7 ++ [0, 1] ++ [9]))
      = ⟨startState, [], some "Matching request not found."⟩ := by
  have h1 := timeout_evicts_and_stale_chunk_throws
      ⟨[(cid7, pendingEntry)], []⟩ cid7 pendingEntry
      (hexPairsToBytes cid7 ++ [0, 1] ++ [9])
  have h2 := timeout_evicts_and_stale_chunk_throws startState cid7
      pendingEntry (hexPairsToBytes cid7 ++ [0, 1] ++ [9])
  exact ⟨by decide, (h1.1 (by decide)).trans (by decide), by decide,
    h2.2 (by decide)⟩

theorem jsEveryDefined_true (c : List (Option (List Nat))) :
    jsEveryDefined c = true := by
  induction c with
  | nil => rfl
  | cons hd tl ih =>
      cases hd <;> simpa [jsEveryDefined, List.all_cons] using ih

theorem handleMessage_no_connection_action (s : ClientState)
    (m : InMessage) :
    (handleMessage s m).actions.filter isConnAction = []
    ∧ (handleMessage s m).state.connections = s.connections := by
  rcases m with frame | data
  · rcases frame with ⟨id, meta⟩ | id | id | id | ⟨id, c, k, msg⟩ | _
    · rcases h : qLookup s.responseQueue id with _ | e
      · simp [handleMessage, h]
      · rcases hb : declaredBodyFalsy meta.body with _ | _ <;>
          simp [handleMessage, h, hb, isConnAction]
    all_goals simp [handleMessage, isConnAction]
  · rcases h : qLookup s.responseQueue (bytesToHexDigits (data.take 16))
        with _ | e
    · simp [handleMessage, h]
    · simp only [handleMessage, h, jsEveryDefined_true, if_true]
      split
      · simp [isConnAction]
      · split <;> simp [isConnAction]

/-- C10: the promise returned by `connect` never settles. After `connect`
stores its resolve/reject pair in `#connections`, no inbound message
sequence whatsoever — control frames of any tag (`open` and `close`
included, whose cases are TODO stubs), error frames, or binary chunk
frames — ever invokes a connection continuation, and the stored entry is
never removed. -/
theorem connect_promise_never_settles :
    ∀ (s : ClientState) (id : CorrelationId) (msgs : List InMessage),
      (runMessages (connectModel s id) msgs).2.filter isConnAction = []
      ∧ (runMessages (connectModel s id) msgs).1.connections
          = s.connections ++ [id] := by
  intro s id msgs
  have key : ∀ (ms : List InMessage) (t : ClientState),
      (runMessages t ms).2.filter isConnAction = []
      ∧ (runMessages t ms).1.connections = t.connections := by
    intro ms
    induction ms with
    | nil => intro t; simp [runMessages]
    | cons m rest ih =>
        intro t
        have hstep := handleMessage_no_connection_action t m
        have htail := ih (handleMessage t m).state
        simp [runMessages, List.filter_append, hstep.1, htail.1,
          hstep.2, htail.2]
  exact ⟨(key msgs (connectModel s id)).1,
    (key msgs (connectModel s id)).2⟩
